import Mathlib

/-!
Verification of the statsview telemetry core (package `viewer` and the
`statsview` registry) against its specification.

Shallow embedding conventions:
* Unix timestamps (`time.Now().Unix()`) and the configured interval are
  modelled as `Nat`.  Wall-clock seconds are non-negative, and the
  scheduler only runs with a positive interval (`time.NewTicker` panics
  on a non-positive duration), so no reachable value is negative and
  `int64` overflow is out of reach.
* The Go expression `int64(float64(n)/1000.0)` is modelled as Nat floor
  division `n / 1000`: for any `n < 2^53` the conversion of `n` to
  `float64` is exact, and the rounded quotient `n/1000` can never reach
  the next integer (the true quotient is at least `1/1000` away from any
  integer it does not equal, far more than half an ulp at these
  magnitudes), so Go's truncation toward zero yields `⌊n/1000⌋`.
* The memstats snapshot (`runtime.MemStats`, updated in place by
  `runtime.ReadMemStats`) is abstracted to a single `Nat` holding the
  value the embedded viewers read (`NumGC`); a refresh installs the
  value sampled at that instant, supplied as an event payload.
* `json.Marshal` is modelled as an arbitrary function returning the
  produced bytes together with an optional error, mirroring Go's
  `(bs, err)` pair.
-/

/-- Embeds the package-level `config` struct of `viewer`
(`AutoOpenBrowser`, `Interval`, `MaxPoints`, `Template`, `ListenAddr`,
`LinkAddr`, `TimeFormat`, `Theme`).  The Go `Theme` type is a string
alias, kept as `String`. -/
structure Config where
  AutoOpenBrowser : Bool
  Interval : Int
  MaxPoints : Int
  Template : String
  ListenAddr : String
  LinkAddr : String
  TimeFormat : String
  Theme : String
  deriving DecidableEq

/-- Embeds `Option func(c *config)`: an option is a configuration
transformer applied in place. -/
def ConfigOption : Type := Config → Config

/-- Embeds `WithInterval`: sets only the `Interval` field. -/
def WithInterval (interval : Int) : ConfigOption :=
  fun c => { c with Interval := interval }

/-- Embeds `WithMaxPoints`: sets only the `MaxPoints` field. -/
def WithMaxPoints (n : Int) : ConfigOption :=
  fun c => { c with MaxPoints := n }

/-- Embeds `WithTemplate`: sets only the `Template` field. -/
def WithTemplate (t : String) : ConfigOption :=
  fun c => { c with Template := t }

/-- Embeds `WithAddr`: sets `ListenAddr` and `LinkAddr` to the same
address. -/
def WithAddr (addr : String) : ConfigOption :=
  fun c => { c with ListenAddr := addr, LinkAddr := addr }

/-- Embeds `WithLinkAddr`: sets only the `LinkAddr` field. -/
def WithLinkAddr (addr : String) : ConfigOption :=
  fun c => { c with LinkAddr := addr }

/-- Embeds `WithTimeFormat`: sets only the `TimeFormat` field. -/
def WithTimeFormat (s : String) : ConfigOption :=
  fun c => { c with TimeFormat := s }

/-- Embeds `WithBrowserOpen`: sets only the `AutoOpenBrowser` flag. -/
def WithBrowserOpen : ConfigOption :=
  fun c => { c with AutoOpenBrowser := true }

/-- Embeds `SetConfiguration(opts ...Option)`: applies each option in
order on top of the current configuration. -/
def SetConfiguration (opts : List ConfigOption) (c : Config) : Config :=
  opts.foldl (fun cfg opt => opt cfg) c

/-- Combined mutable state of the scheduler and the snapshot store:
the `StatsMgr` fields `last` (activity deadline, Unix seconds) and
`time` (`LastSampleTime`, Unix seconds), together with the package-level
`memstats` snapshot abstracted to the counter the embedded viewers
read. -/
structure SysState where
  last : Nat
  time : Nat
  stats : Nat
  deriving DecidableEq

/-- Embeds `StatsMgr.Tick` (the spec's `NotifyActivity`):
`atomic.StoreInt64(&s.last, time.Now().Unix()+int64(float64(Interval())/1000.0)*2)`. -/
def StatsMgr.Tick (interval now : Nat) (s : SysState) : SysState :=
  { s with last := now + interval / 1000 * 2 }

/-- Embeds `StatsMgr.TimeUpdate`:
`atomic.StoreInt64(&s.time, time.Now().Unix())`. -/
def StatsMgr.TimeUpdate (now : Nat) (s : SysState) : SysState :=
  { s with time := now }

/-- One iteration of the `ticker.C` branch of `StatsMgr.polling`: if
`s.GetTick() > time.Now().Unix()` the refresh runs under the memstats
write lock (`s.TimeUpdate()` then `runtime.ReadMemStats(memstats.Stats)`,
installing the statistics `sampled` at that instant); otherwise the tick
does nothing. -/
def StatsMgr.pollTick (now sampled : Nat) (s : SysState) : SysState :=
  if s.last > now then
    { StatsMgr.TimeUpdate now s with stats := sampled }
  else
    s

/-- Embeds `NewStatsMgr` at wall-clock time `now`: `last` starts at
`time.Now().Unix() + int64(float64(Interval())/1000.0)*2`, while `time`
and the memstats snapshot hold their Go zero values. -/
def NewStatsMgr (interval now : Nat) : SysState :=
  { last := now + interval / 1000 * 2, time := 0, stats := 0 }

/-- An observable event of the scheduler system: one firing of the
polling ticker (carrying the statistics value `runtime.ReadMemStats`
would install at that instant), or one `StatsMgr.Tick` call made by a
serving handler. -/
inductive Event where
  | tick (sampled : Nat)
  | notify
  deriving DecidableEq

/-- Applies one timestamped event to the state. -/
def stepEvent (interval : Nat) (s : SysState) (e : Nat × Event) : SysState :=
  match e.2 with
  | .tick sampled => StatsMgr.pollTick e.1 sampled s
  | .notify => StatsMgr.Tick interval e.1 s

/-- Runs a timestamped event trace from a state. -/
def runEvents (interval : Nat) (s : SysState) (evs : List (Nat × Event)) : SysState :=
  evs.foldl (stepEvent interval) s

/-- Embeds the `Metrics` wire struct: `Values []float64` (each embedded
viewer stores a small integer counter, exactly representable, so the
entries are modelled as `Nat`) and the formatted `Time` string. -/
structure Metrics where
  values : List Nat
  time : String
  deriving DecidableEq

/-- Embeds `GCNumViewer.Serve`: calls `vr.smgr.Tick()`, reads the
snapshot counter and `vr.smgr.GetTime()` under the read lock into a
`Metrics`, marshals it discarding the error (`bs, _ := json.Marshal`),
and writes the produced bytes.  Returns the updated scheduler state and
the bytes written. -/
def GCNumViewer.Serve (marshal : Metrics → List Nat × Option String)
    (fmt : Nat → String) (interval now : Nat) (s : SysState) :
    SysState × List Nat :=
  let s1 := StatsMgr.Tick interval now s
  let m : Metrics := { values := [s1.stats], time := fmt s1.time }
  let r := marshal m
  (s1, r.1)

/-- Embeds `StaticViewer.Serve`: calls `vs.smgr.Tick()`, builds a
`Metrics` from the package-level counter `i` (`float64(i % 10)`) and
`vs.smgr.GetTime()`, increments `i`, marshals discarding the error, and
writes the produced bytes.  Returns the updated scheduler state, the new
counter, the metrics point, and the bytes written. -/
def StaticViewer.Serve (marshal : Metrics → List Nat × Option String)
    (fmt : Nat → String) (interval now : Nat) (s : SysState) (i : Nat) :
    SysState × Nat × Metrics × List Nat :=
  let s1 := StatsMgr.Tick interval now s
  let m : Metrics := { values := [i % 10], time := fmt s1.time }
  let r := marshal m
  (s1, i + 1, m, r.1)

/-- Folds `StaticViewer.Serve` over a list of call times, threading the
scheduler state and the package-level counter. -/
def StaticViewer.serveAll (marshal : Metrics → List Nat × Option String)
    (fmt : Nat → String) (interval : Nat) (p : SysState × Nat)
    (ts : List Nat) : SysState × Nat :=
  ts.foldl
    (fun q now =>
      let r := StaticViewer.Serve marshal fmt interval now q.1 q.2
      (r.1, r.2.1))
    p

/-- Embeds `Viewers.Register`, `*v = append(*v, views...)`, over an
abstract element type standing for `viewer.Viewer`. -/
def Viewers.Register {α : Type} (v views : List α) : List α :=
  v ++ views

/-- When the deadline is still ahead of the clock, a ticker firing
refreshes: it keeps the deadline, stamps the time and installs the
sampled statistics. -/
theorem pollTick_of_lt (now sampled : Nat) (s : SysState)
    (h : now < s.last) :
    StatsMgr.pollTick now sampled s = ⟨s.last, now, sampled⟩ := by
  rw [StatsMgr.pollTick, if_pos h]; rfl

/-- When the clock has reached the deadline, a ticker firing is a
no-op. -/
theorem pollTick_of_ge (now sampled : Nat) (s : SysState)
    (h : s.last ≤ now) :
    StatsMgr.pollTick now sampled s = s := by
  rw [StatsMgr.pollTick, if_neg (Nat.not_lt.mpr h)]

/-- A polling-ticker firing never moves the activity deadline. -/
theorem pollTick_last (now sampled : Nat) (s : SysState) :
    (StatsMgr.pollTick now sampled s).last = s.last := by
  rcases Nat.lt_or_ge now s.last with h | h
  · rw [pollTick_of_lt now sampled s h]
  · rw [pollTick_of_ge now sampled s h]

/-- A trace with no `StatsMgr.Tick` call leaves the activity deadline
where it was. -/
theorem runEvents_last_of_no_notify (interval : Nat) (s : SysState)
    (evs : List (Nat × Event)) (h : ∀ p ∈ evs, p.2 ≠ Event.notify) :
    (runEvents interval s evs).last = s.last := by
  induction evs generalizing s with
  | nil => rfl
  | cons e rest ih =>
    have he : e.2 ≠ Event.notify := h e (List.mem_cons_self e rest)
    have hrest : ∀ p ∈ rest, p.2 ≠ Event.notify :=
      fun p hp => h p (List.mem_cons_of_mem e hp)
    rw [runEvents, List.foldl_cons, ← runEvents, ih _ hrest]
    match hev : e.2 with
    | .notify => exact absurd hev he
    | .tick v => rw [stepEvent, hev, pollTick_last]

/-- After any trace, the activity deadline is either its initial value
or was installed by some `StatsMgr.Tick` call in the trace. -/
theorem runEvents_last_cases (interval : Nat) (s : SysState)
    (evs : List (Nat × Event)) :
    (runEvents interval s evs).last = s.last ∨
      ∃ T, (T, Event.notify) ∈ evs ∧
        (runEvents interval s evs).last = T + interval / 1000 * 2 := by
  induction evs generalizing s with
  | nil => exact Or.inl rfl
  | cons e rest ih =>
    rw [runEvents, List.foldl_cons, ← runEvents]
    rcases ih (stepEvent interval s e) with h | ⟨T, hT, hlast⟩
    · rw [h]
      match hev : e.2 with
      | .tick v =>
        rw [stepEvent, hev, pollTick_last]
        exact Or.inl rfl
      | .notify =>
        refine Or.inr ⟨e.1, ?_, ?_⟩
        · have : e = (e.1, Event.notify) := by
            cases e; simp_all
          exact this ▸ List.mem_cons_self _ _
        · simp only [stepEvent, hev]; rfl
    · exact Or.inr ⟨T, List.mem_cons_of_mem e hT, hlast⟩

/-- A tick-only trace whose every firing happens at or after the
deadline changes nothing at all. -/
theorem runEvents_idle (interval : Nat) (s : SysState)
    (evs : List (Nat × Event)) (hno : ∀ p ∈ evs, p.2 ≠ Event.notify)
    (hlate : ∀ p ∈ evs, s.last ≤ p.1) :
    runEvents interval s evs = s := by
  induction evs with
  | nil => rfl
  | cons e rest ih =>
    have he : e.2 ≠ Event.notify := hno e (List.mem_cons_self e rest)
    have hstep : stepEvent interval s e = s := by
      match hev : e.2 with
      | .notify => exact absurd hev he
      | .tick v =>
        simp only [stepEvent, hev]
        exact pollTick_of_ge e.1 v s (hlate e (List.mem_cons_self e rest))
    rw [runEvents, List.foldl_cons, ← runEvents, hstep]
    exact ih (fun p hp => hno p (List.mem_cons_of_mem e hp))
      (fun p hp => hlate p (List.mem_cons_of_mem e hp))

/-- After any trace, `LastSampleTime` is either its initial value or the
timestamp of some event of the trace. -/
theorem runEvents_time_cases (interval : Nat) (s : SysState)
    (evs : List (Nat × Event)) :
    (runEvents interval s evs).time = s.time ∨
      ∃ p ∈ evs, (runEvents interval s evs).time = p.1 := by
  induction evs generalizing s with
  | nil => exact Or.inl rfl
  | cons e rest ih =>
    rw [runEvents, List.foldl_cons, ← runEvents]
    rcases ih (stepEvent interval s e) with h | ⟨p, hp, htime⟩
    · rw [h]
      match hev : e.2 with
      | .notify =>
        simp only [stepEvent, hev]
        exact Or.inl rfl
      | .tick v =>
        simp only [stepEvent, hev]
        rcases Nat.lt_or_ge e.1 s.last with hc | hc
        · rw [pollTick_of_lt e.1 v s hc]
          exact Or.inr ⟨e, List.mem_cons_self e rest, rfl⟩
        · rw [pollTick_of_ge e.1 v s hc]
          exact Or.inl rfl
    · exact Or.inr ⟨p, List.mem_cons_of_mem e hp, htime⟩

/-- If event timestamps never decrease along the trace and the stored
`LastSampleTime` does not exceed any of them, running the trace can only
move `LastSampleTime` forward. -/
theorem runEvents_time_le (interval : Nat) (s : SysState)
    (evs : List (Nat × Event))
    (hmono : evs.Pairwise (fun p q => p.1 ≤ q.1))
    (hinit : ∀ p ∈ evs, s.time ≤ p.1) :
    s.time ≤ (runEvents interval s evs).time := by
  induction evs generalizing s with
  | nil => exact Nat.le_refl _
  | cons e rest ih =>
    rw [runEvents, List.foldl_cons, ← runEvents]
    rcases List.pairwise_cons.mp hmono with ⟨hhead, hrest⟩
    match hev : e.2 with
    | .notify =>
      have hstep : stepEvent interval s e = StatsMgr.Tick interval e.1 s := by
        simp only [stepEvent, hev]
      rw [hstep]
      have : (StatsMgr.Tick interval e.1 s).time = s.time := rfl
      calc s.time = (StatsMgr.Tick interval e.1 s).time := this.symm
        _ ≤ _ := ih _ hrest (fun p hp => by
            rw [this]; exact hinit p (List.mem_cons_of_mem e hp))
    | .tick v =>
      have hstep : stepEvent interval s e = StatsMgr.pollTick e.1 v s := by
        simp only [stepEvent, hev]
      rw [hstep]
      rcases Nat.lt_or_ge e.1 s.last with hc | hc
      · rw [pollTick_of_lt e.1 v s hc]
        calc s.time ≤ e.1 := hinit e (List.mem_cons_self e rest)
          _ = (⟨s.last, e.1, v⟩ : SysState).time := rfl
          _ ≤ _ := ih _ hrest (fun p hp => hhead p hp)
      · rw [pollTick_of_ge e.1 v s hc]
        exact ih _ hrest (fun p hp => hinit p (List.mem_cons_of_mem e hp))

/-- Each `StaticViewer.Serve` call increments the package-level counter
by exactly one, so a batch of calls adds its length. -/
theorem serveAll_counter (marshal : Metrics → List Nat × Option String)
    (fmt : Nat → String) (interval : Nat) (s : SysState) (i : Nat)
    (ts : List Nat) :
    (StaticViewer.serveAll marshal fmt interval (s, i) ts).2 = i + ts.length := by
  induction ts generalizing s i with
  | nil => rfl
  | cons t rest ih =>
    rw [StaticViewer.serveAll, List.foldl_cons, ← StaticViewer.serveAll]
    have := ih (StaticViewer.Serve marshal fmt interval t s i).1 (i + 1)
    simpa [Nat.add_comm, Nat.add_assoc, Nat.add_left_comm] using this

/-- C1: `NotifyActivity` (`StatsMgr.Tick`) called at wall-clock time
`now` with configured interval `interval` (milliseconds) stores the
activity deadline `now + 2 × (interval / 1000)` Unix seconds, the
interval being converted to whole seconds before doubling. -/
theorem Tick_sets_deadline (interval now : Nat) (s : SysState) :
    (StatsMgr.Tick interval now s).last = now + 2 * (interval / 1000) := by
  simp [StatsMgr.Tick, Nat.mul_comm]

/-- C2 counterexample: at a tick firing exactly at the deadline
(`now = ActivityDeadline = 5`, so `now ≤ ActivityDeadline`), the claim
demands a refresh, but the code skips it: the state — including
`LastSampleTime`, which would have become `5` — is unchanged. -/
theorem refresh_at_exact_deadline_skipped :
    5 ≤ (⟨5, 0, 0⟩ : SysState).last ∧
      StatsMgr.pollTick 5 7 ⟨5, 0, 0⟩ = ⟨5, 0, 0⟩ := by
  decide

/-- C2 amended: on each firing of the periodic timer, if
`now < ActivityDeadline` (strictly) the refresh is performed — the
statistics are read into the snapshot and `LastSampleTime` is stamped to
`now`; if `now ≥ ActivityDeadline` the tick leaves the snapshot store
and `LastSampleTime` unchanged. -/
theorem polling_refresh_iff_strict (now sampled : Nat) (s : SysState) :
    (now < s.last →
        StatsMgr.pollTick now sampled s = ⟨s.last, now, sampled⟩) ∧
    (s.last ≤ now → StatsMgr.pollTick now sampled s = s) :=
  ⟨pollTick_of_lt now sampled s, pollTick_of_ge now sampled s⟩

/-- C2 witness: both branches of the amended claim at concrete
inputs. -/
theorem polling_refresh_iff_strict_witness :
    StatsMgr.pollTick 4 9 ⟨5, 0, 0⟩ = ⟨5, 4, 9⟩ ∧
      StatsMgr.pollTick 6 9 ⟨5, 0, 0⟩ = ⟨5, 0, 0⟩ :=
  ⟨(polling_refresh_iff_strict 4 9 ⟨5, 0, 0⟩).1 (by decide),
   (polling_refresh_iff_strict 6 9 ⟨5, 0, 0⟩).2 (by decide)⟩

/-- C8: `Register` appends the given sources at the end of the
collection in argument order — the length grows by the number of
arguments, existing positions are untouched, argument `j` lands at
position `n + j`, and multiplicities add, so duplicate names survive
with no deduplication. -/
theorem Register_appends {α : Type} [DecidableEq α] (v ws : List α) :
    (Viewers.Register v ws).length = v.length + ws.length ∧
    (∀ i, i < v.length → (Viewers.Register v ws)[i]? = v[i]?) ∧
    (∀ j, (Viewers.Register v ws)[v.length + j]? = ws[j]?) ∧
    (∀ x : α, (Viewers.Register v ws).count x = v.count x + ws.count x) := by
  refine ⟨List.length_append v ws, fun i hi => ?_, fun j => ?_, fun x => ?_⟩
  · rw [Viewers.Register, List.getElem?_append, if_pos hi]
  · rw [Viewers.Register, List.getElem?_append, if_neg (by omega),
      Nat.add_sub_cancel_left]
  · rw [Viewers.Register, List.count_append]

/-- C8 witness: registering `[1, 2]` onto `[0, 1]` keeps position 1,
puts argument 1 at position 2 + 1, and keeps both copies of the
duplicate element `1`. -/
theorem Register_appends_witness :
    (Viewers.Register [0, 1] [1, 2]).length = 2 + 2 ∧
      (Viewers.Register [0, 1] [1, 2])[1]? = ([0, 1] : List Nat)[1]? ∧
      (Viewers.Register [0, 1] [1, 2])[2 + 1]? = ([1, 2] : List Nat)[1]? ∧
      (Viewers.Register [0, 1] [1, 2]).count 1 =
        ([0, 1] : List Nat).count 1 + ([1, 2] : List Nat).count 1 :=
  ⟨(Register_appends [0, 1] [1, 2]).1,
   (Register_appends [0, 1] [1, 2]).2.1 1 (by decide),
   (Register_appends [0, 1] [1, 2]).2.2.1 1,
   (Register_appends [0, 1] [1, 2]).2.2.2 1⟩

/-- C10: `WithLinkAddr` sets only `LinkAddr` and leaves `ListenAddr`
and every other configuration field unchanged, while `WithAddr` sets
both `ListenAddr` and `LinkAddr` to the same value and leaves every
other field unchanged. -/
theorem WithAddr_WithLinkAddr_fields (addr : String) (c : Config) :
    (WithLinkAddr addr c).LinkAddr = addr ∧
    (WithLinkAddr addr c).ListenAddr = c.ListenAddr ∧
    (WithLinkAddr addr c).AutoOpenBrowser = c.AutoOpenBrowser ∧
    (WithLinkAddr addr c).Interval = c.Interval ∧
    (WithLinkAddr addr c).MaxPoints = c.MaxPoints ∧
    (WithLinkAddr addr c).Template = c.Template ∧
    (WithLinkAddr addr c).TimeFormat = c.TimeFormat ∧
    (WithLinkAddr addr c).Theme = c.Theme ∧
    (WithAddr addr c).ListenAddr = addr ∧
    (WithAddr addr c).LinkAddr = addr ∧
    (WithAddr addr c).AutoOpenBrowser = c.AutoOpenBrowser ∧
    (WithAddr addr c).Interval = c.Interval ∧
    (WithAddr addr c).MaxPoints = c.MaxPoints ∧
    (WithAddr addr c).Template = c.Template ∧
    (WithAddr addr c).TimeFormat = c.TimeFormat ∧
    (WithAddr addr c).Theme = c.Theme :=
  ⟨rfl, rfl, rfl, rfl, rfl, rfl, rfl, rfl,
   rfl, rfl, rfl, rfl, rfl, rfl, rfl, rfl⟩

/-- C3 counterexample: `NotifyActivity` at `T = 100` with the default
interval `2000` ms sets the deadline to `104`; the tick firing at
`t = 104`, which lies in the claimed half-open window
`(T, T + 2×interval]`, performs no refresh — the state, including
`LastSampleTime`, is unchanged. -/
theorem activity_extension_endpoint_fails :
    (100 : Nat) < 104 ∧ 104 ≤ 100 + 2 * (2000 / 1000) ∧
      StatsMgr.pollTick 104 55 (StatsMgr.Tick 2000 100 ⟨0, 0, 0⟩) =
        StatsMgr.Tick 2000 100 ⟨0, 0, 0⟩ := by
  decide

/-- C3 amended: after `NotifyActivity` at time `T`, every scheduler
tick firing at a time in the open window
`(T, T + 2×(interval/1000))` — the interval converted to whole seconds
before doubling, the right endpoint excluded — performs a refresh,
provided no intervening `NotifyActivity` moved the deadline. -/
theorem activity_extension_open_window (interval T t sampled : Nat)
    (s : SysState) (pre : List (Nat × Event))
    (hpre : ∀ p ∈ pre, p.2 ≠ Event.notify)
    (_h1 : T < t) (h2 : t < T + 2 * (interval / 1000)) :
    StatsMgr.pollTick t sampled
        (runEvents interval (StatsMgr.Tick interval T s) pre) =
      ⟨T + interval / 1000 * 2, t, sampled⟩ := by
  have hlast :
      (runEvents interval (StatsMgr.Tick interval T s) pre).last =
        T + interval / 1000 * 2 := by
    rw [runEvents_last_of_no_notify interval _ pre hpre]; rfl
  have hlt : t <
      (runEvents interval (StatsMgr.Tick interval T s) pre).last := by
    rw [hlast]; omega
  rw [pollTick_of_lt _ _ _ hlt, hlast]

/-- C3 witness: activity at `T = 100`, interval `2000` ms, tick at
`t = 103` inside the open window refreshes. -/
theorem activity_extension_open_window_witness :
    StatsMgr.pollTick 103 55
        (runEvents 2000 (StatsMgr.Tick 2000 100 ⟨0, 0, 0⟩) []) =
      ⟨104, 103, 55⟩ :=
  activity_extension_open_window 2000 100 103 55 ⟨0, 0, 0⟩ []
    (by decide) (by decide) (by decide)

/-- C4 counterexample: with the default interval `2000` ms and the
scheduler constructed at time `100`, the tick at time `101` — although
no `NotifyActivity` call ever occurred — performs a refresh: it stamps
`LastSampleTime` from `0` to `101` and overwrites the snapshot store
with the sampled value `7`. -/
theorem idle_suppression_fails_at_startup :
    (NewStatsMgr 2000 100).time = 0 ∧
      StatsMgr.pollTick 101 7 (NewStatsMgr 2000 100) = ⟨104, 101, 7⟩ := by
  decide

/-- C4 amended: for every sequence of scheduler ticks during which
neither a `NotifyActivity` call nor the scheduler construction itself
occurred within the preceding `2×interval` window, no refresh is
performed on any of those ticks and the whole state — in particular the
snapshot store — is identical across the whole sequence.  (Window
membership is stated in milliseconds, `1000·T + 2·interval ≤ 1000·t`,
to avoid fractional seconds.) -/
theorem idle_suppression_after_quiet_window (interval t0 : Nat)
    (evs post : List (Nat × Event))
    (hticks : ∀ p ∈ post, p.2 ≠ Event.notify)
    (hstart : ∀ p ∈ post, 1000 * t0 + 2 * interval ≤ 1000 * p.1)
    (hnotify : ∀ q ∈ evs, q.2 = Event.notify →
        ∀ p ∈ post, 1000 * q.1 + 2 * interval ≤ 1000 * p.1) :
    ∀ xs ys, post = xs ++ ys →
      runEvents interval (runEvents interval (NewStatsMgr interval t0) evs) xs =
        runEvents interval (NewStatsMgr interval t0) evs := by
  intro xs ys hsplit
  have hlast_le : ∀ p ∈ post,
      (runEvents interval (NewStatsMgr interval t0) evs).last ≤ p.1 := by
    intro p hp
    rcases runEvents_last_cases interval (NewStatsMgr interval t0) evs with
      h | ⟨T, _, h⟩
    · have hs := hstart p hp
      have hd : interval / 1000 * 1000 ≤ interval :=
        Nat.div_mul_le_self interval 1000
      have hv : (NewStatsMgr interval t0).last =
          t0 + interval / 1000 * 2 := rfl
      rw [h, hv]; omega
    · have hs := hnotify (T, Event.notify) (by assumption) rfl p hp
      have hd : interval / 1000 * 1000 ≤ interval :=
        Nat.div_mul_le_self interval 1000
      rw [h]; omega
  exact runEvents_idle interval _ xs
    (fun p hp => hticks p (hsplit ▸ List.mem_append_left ys hp))
    (fun p hp => hlast_le p (hsplit ▸ List.mem_append_left ys hp))

/-- C4 witness: interval `2000` ms, construction at `0`, one
`NotifyActivity` at `10`; the ticks at `14` and `15` lie at or beyond
every preceding activity window, and running the first of them changes
nothing. -/
theorem idle_suppression_after_quiet_window_witness :
    runEvents 2000
        (runEvents 2000 (NewStatsMgr 2000 0) [(10, Event.notify)])
        [(14, Event.tick 5)] =
      runEvents 2000 (NewStatsMgr 2000 0) [(10, Event.notify)] :=
  idle_suppression_after_quiet_window 2000 0 [(10, Event.notify)]
    [(14, Event.tick 5), (15, Event.tick 6)]
    (by decide) (by decide) (by decide)
    [(14, Event.tick 5)] [(15, Event.tick 6)] rfl

/-- C9: `NewStatsMgr` at time `t0` initialises the activity deadline to
the live value `t0 + 2×(interval/1000)` rather than an expired one, so
any tick firing before that deadline — even after further notify-free
events and with no `NotifyActivity` ever called — performs a refresh,
stamping `LastSampleTime` and installing the sampled statistics. -/
theorem NewStatsMgr_deadline_live (interval t0 t sampled : Nat)
    (pre : List (Nat × Event)) (hpre : ∀ p ∈ pre, p.2 ≠ Event.notify)
    (ht : t < t0 + 2 * (interval / 1000)) :
    (NewStatsMgr interval t0).last = t0 + 2 * (interval / 1000) ∧
      (StatsMgr.pollTick t sampled
          (runEvents interval (NewStatsMgr interval t0) pre)).time = t ∧
      (StatsMgr.pollTick t sampled
          (runEvents interval (NewStatsMgr interval t0) pre)).stats =
        sampled := by
  have hlast :
      (runEvents interval (NewStatsMgr interval t0) pre).last =
        t0 + interval / 1000 * 2 := by
    rw [runEvents_last_of_no_notify interval _ pre hpre]; rfl
  have hlt : t <
      (runEvents interval (NewStatsMgr interval t0) pre).last := by
    rw [hlast]; omega
  rw [pollTick_of_lt _ _ _ hlt]
  exact ⟨by unfold NewStatsMgr; simp [Nat.mul_comm], rfl, rfl⟩

/-- C9 witness: interval `2000` ms, construction at `100`, first tick at
`101` with no pull ever made: the refresh happens. -/
theorem NewStatsMgr_deadline_live_witness :
    (NewStatsMgr 2000 100).last = 100 + 2 * (2000 / 1000) ∧
      (StatsMgr.pollTick 101 9
          (runEvents 2000 (NewStatsMgr 2000 100) [])).time = 101 ∧
      (StatsMgr.pollTick 101 9
          (runEvents 2000 (NewStatsMgr 2000 100) [])).stats = 9 :=
  NewStatsMgr_deadline_live 2000 100 101 9 [] (by decide) (by decide)

/-- C5: starting from the package-level counter `0`, after `N − 1` calls
the counter holds `N − 1`, and the `N`-th call to `StaticViewer.Serve`
emits a `Metrics` point whose `values[0]` is `(N − 1) mod 10` and
increments the counter by exactly one — regardless of call times,
marshaller, time format and scheduler state. -/
theorem static_viewer_cyclic (marshal : Metrics → List Nat × Option String)
    (fmt : Nat → String) (interval : Nat) (s : SysState) (ts : List Nat)
    (tN N : Nat) (_hN : 1 ≤ N) (hlen : ts.length = N - 1) :
    (StaticViewer.serveAll marshal fmt interval (s, 0) ts).2 = N - 1 ∧
      (StaticViewer.Serve marshal fmt interval tN
          (StaticViewer.serveAll marshal fmt interval (s, 0) ts).1
          (StaticViewer.serveAll marshal fmt interval (s, 0) ts).2).2.2.1.values =
        [(N - 1) % 10] ∧
      (StaticViewer.Serve marshal fmt interval tN
          (StaticViewer.serveAll marshal fmt interval (s, 0) ts).1
          (StaticViewer.serveAll marshal fmt interval (s, 0) ts).2).2.1 =
        (N - 1) + 1 := by
  have hc : (StaticViewer.serveAll marshal fmt interval (s, 0) ts).2 = N - 1 := by
    rw [serveAll_counter]; omega
  refine ⟨hc, ?_, ?_⟩
  · rw [hc]; rfl
  · rw [hc]; rfl

/-- C5 witness: eleven calls leave the counter at `11`, and the twelfth
call emits `values[0] = 11 mod 10 = 1` and moves the counter to `12`. -/
theorem static_viewer_cyclic_witness :
    (StaticViewer.serveAll (fun _ => ([], none)) (fun _ => "") 2000
        (⟨0, 0, 0⟩, 0) (List.replicate 11 3)).2 = 12 - 1 ∧
      (StaticViewer.Serve (fun _ => ([], none)) (fun _ => "") 2000 7
          (StaticViewer.serveAll (fun _ => ([], none)) (fun _ => "") 2000
            (⟨0, 0, 0⟩, 0) (List.replicate 11 3)).1
          (StaticViewer.serveAll (fun _ => ([], none)) (fun _ => "") 2000
            (⟨0, 0, 0⟩, 0) (List.replicate 11 3)).2).2.2.1.values =
        [(12 - 1) % 10] ∧
      (StaticViewer.Serve (fun _ => ([], none)) (fun _ => "") 2000 7
          (StaticViewer.serveAll (fun _ => ([], none)) (fun _ => "") 2000
            (⟨0, 0, 0⟩, 0) (List.replicate 11 3)).1
          (StaticViewer.serveAll (fun _ => ([], none)) (fun _ => "") 2000
            (⟨0, 0, 0⟩, 0) (List.replicate 11 3)).2).2.1 =
        (12 - 1) + 1 :=
  static_viewer_cyclic (fun _ => ([], none)) (fun _ => "") 2000 ⟨0, 0, 0⟩
    (List.replicate 11 3) 7 12 (by decide) (by decide)

/-- Running a concatenated trace runs the two parts in sequence. -/
theorem runEvents_append (interval : Nat) (s : SysState)
    (xs ys : List (Nat × Event)) :
    runEvents interval s (xs ++ ys) =
      runEvents interval (runEvents interval s xs) ys := by
  simp only [runEvents, List.foldl_append]

/-- C6: along any trace of ticker firings and `NotifyActivity` calls
whose wall-clock timestamps never decrease, the stored `LastSampleTime`
is non-decreasing: the value after any prefix of the trace is at most
the value after the whole trace. -/
theorem lastSampleTime_monotone (interval t0 : Nat)
    (evs : List (Nat × Event))
    (hmono : evs.Pairwise (fun p q => p.1 ≤ q.1)) :
    ∀ xs ys, evs = xs ++ ys →
      (runEvents interval (NewStatsMgr interval t0) xs).time ≤
        (runEvents interval (NewStatsMgr interval t0) evs).time := by
  intro xs ys hsplit
  subst hsplit
  rw [runEvents_append]
  apply runEvents_time_le
  · exact (List.pairwise_append.mp hmono).2.1
  · intro p hp
    rcases runEvents_time_cases interval (NewStatsMgr interval t0) xs with
      h | ⟨q, hq, h⟩
    · rw [h]; exact Nat.zero_le _
    · rw [h]; exact (List.pairwise_append.mp hmono).2.2 q hq p hp

/-- C6 witness: two refreshing ticks at times `1` and `2`; after the
first the stamp is `1`, at most the final stamp `2`. -/
theorem lastSampleTime_monotone_witness :
    (runEvents 2000 (NewStatsMgr 2000 0) [(1, Event.tick 3)]).time ≤
      (runEvents 2000 (NewStatsMgr 2000 0)
        [(1, Event.tick 3), (2, Event.tick 4)]).time :=
  lastSampleTime_monotone 2000 0 [(1, Event.tick 3), (2, Event.tick 4)]
    (by decide) [(1, Event.tick 3)] [(2, Event.tick 4)] rfl

/-- C7: a serving handler never fails because of serialization: the
error component returned by the marshaller is discarded — two
marshallers producing the same bytes yield identical `Serve` results
whatever their error components — and the handler best-effort writes
exactly the bytes the marshaller produced. -/
theorem serve_marshal_error_discarded
    (m1 m2 : Metrics → List Nat × Option String) (fmt : Nat → String)
    (interval now i : Nat) (s : SysState)
    (hb : ∀ x, (m1 x).1 = (m2 x).1) :
    GCNumViewer.Serve m1 fmt interval now s =
        GCNumViewer.Serve m2 fmt interval now s ∧
      StaticViewer.Serve m1 fmt interval now s i =
        StaticViewer.Serve m2 fmt interval now s i ∧
      (GCNumViewer.Serve m1 fmt interval now s).2 =
        (m1 { values := [s.stats], time := fmt s.time }).1 := by
  refine ⟨?_, ?_, rfl⟩
  · simp only [GCNumViewer.Serve, hb]
  · simp only [StaticViewer.Serve, hb]

/-- C7 witness: a marshaller that reports an error produces the same
handler behaviour as one that does not, and its bytes are written. -/
theorem serve_marshal_error_discarded_witness :
    GCNumViewer.Serve (fun _ => ([1, 2], some ("boom"))) (fun _ => "")
        2000 5 ⟨0, 0, 0⟩ =
      GCNumViewer.Serve (fun _ => ([1, 2], none)) (fun _ => "")
        2000 5 ⟨0, 0, 0⟩ ∧
    StaticViewer.Serve (fun _ => ([1, 2], some ("boom"))) (fun _ => "")
        2000 5 ⟨0, 0, 0⟩ 3 =
      StaticViewer.Serve (fun _ => ([1, 2], none)) (fun _ => "")
        2000 5 ⟨0, 0, 0⟩ 3 ∧
    (GCNumViewer.Serve (fun _ => ([1, 2], some ("boom"))) (fun _ => "")
        2000 5 ⟨0, 0, 0⟩).2 = [1, 2] :=
  serve_marshal_error_discarded (fun _ => ([1, 2], some ("boom")))
    (fun _ => ([1, 2], none)) (fun _ => "") 2000 5 3 ⟨0, 0, 0⟩
    (fun _ => rfl)
